import Mathlib

/-
Verification of the `debug` structured-logging package of the ts-dk
repository: filter factories, log-line formatting, the filter-combination
Logger, the LoggerRegistry fan-out, and the file-sink failure semantics.

Shallow embedding conventions:
  * A TypeScript log record `{ level, component? }` becomes `LogOptions`
    with `level : Nat` (numeric enum values; unknown numerics permitted)
    and `component : Option String` (`undefined` ↦ `none`).
  * The printf-style payload (`...args` rendered by `util.format`) is kept
    abstract as an already-formatted `String` where only the line shape
    matters, and as an opaque `Payload` (list of values) where only the
    fact that the sink receives it matters.
  * Timestamps (`new Date().toISOString()`) are passed in as an explicit
    `String` parameter instead of reading a clock.
  * Side-effecting writes are modelled as lists of emitted events.
-/

set_option autoImplicit false

/-- Log record metadata: numeric severity level plus optional component
tag.  `level` is `Nat` because the code permits numeric values outside the
five-member `LogLevel` enum. -/
structure LogOptions where
  level : Nat
  component : Option String
deriving DecidableEq, Repr

/-- Opaque rendered payload of a log call (the `...args` of the writers). -/
abbrev Payload := List String

/-- A filter is a pure predicate over the log record (`LogFilter` type of
`types.ts`). -/
abbrev LogFilter := LogOptions → Bool

/-- Filter combination mode of a Logger (`FilterMode` of `types.ts`). -/
inductive FilterMode where
  | all
  | any
deriving DecidableEq, Repr

/-- Numeric value of `LogLevel.TRACE`. -/
def LogLevel.TRACE : Nat := 10
/-- Numeric value of `LogLevel.DEBUG`. -/
def LogLevel.DEBUG : Nat := 20
/-- Numeric value of `LogLevel.INFO`. -/
def LogLevel.INFO : Nat := 30
/-- Numeric value of `LogLevel.WARN`. -/
def LogLevel.WARN : Nat := 40
/-- Numeric value of `LogLevel.ERROR`. -/
def LogLevel.ERROR : Nat := 50

/- ------------------------------------------------------------------
Filter factories of `packages/debug/src/log/filters.ts`.
------------------------------------------------------------------ -/

/-- `selectedLevelLogFilter(levels)`: builds `new Set(levels)` and passes
iff `options.level` is in the set (set membership = list membership). -/
def selectedLevelLogFilter (levels : List Nat) : LogFilter :=
  fun options => levels.contains options.level

/-- `minLevelLogFilter(minLevel)`: passes iff `options.level >= minLevel`. -/
def minLevelLogFilter (minLevel : Nat) : LogFilter :=
  fun options => decide (minLevel ≤ options.level)

/-- `componentMatchingLogFilter(components)`: with an empty list returns a
constant-true filter; otherwise passes iff `options.component` is defined
and a member of the set built from `components`. -/
def componentMatchingLogFilter (components : List String) : LogFilter :=
  if components.isEmpty then fun _ => true
  else fun options =>
    match options.component with
    | some c => components.contains c
    | none => false

/- ------------------------------------------------------------------
The flat pre-filtered-writer API (`logger.ts`, the legacy variant):
level/component filters, `formatLevel` and `formatLog`.
------------------------------------------------------------------ -/

/-- `levelsFilter(levels)` of `logger.ts`: `new Set(levels)` membership on
the bare level. -/
def FlatLogger.levelsFilter (levels : List Nat) : Nat → Bool :=
  fun level => levels.contains level

/-- `minLevelFilter(minLevel)` of `logger.ts`: `level >= minLevel`. -/
def FlatLogger.minLevelFilter (minLevel : Nat) : Nat → Bool :=
  fun level => decide (minLevel ≤ level)

/-- `componentFilter(components)` of `logger.ts`: empty list yields a
constant-true filter; otherwise the component must be defined and a member
of the set. -/
def FlatLogger.componentFilter (components : List String) : Option String → Bool :=
  if components.isEmpty then fun _ => true
  else fun component =>
    match component with
    | some c => components.contains c
    | none => false

/-- `formatLevel` of `logger.ts`: a switch over the five enum values with
default case `'LOG'`. -/
def FlatLogger.formatLevel (level : Nat) : String :=
  if level = 10 then "TRACE"
  else if level = 20 then "DEBUG"
  else if level = 30 then "INFO"
  else if level = 40 then "WARN"
  else if level = 50 then "ERROR"
  else "LOG"

/-- `formatLog` of `logger.ts`:
`` `${date} [${formatLevel(level)}]${componentPart} ${format(...args)}` ``
where `componentPart` is `` ` [${component}]` `` when `message.component`
is truthy (defined and non-empty) and `''` otherwise.  The timestamp and
the rendered args are explicit parameters. -/
def FlatLogger.formatLog (ts : String) (message : LogOptions) (formattedArgs : String) : String :=
  let componentPart :=
    match message.component with
    | some c => if c = "" then "" else " [" ++ c ++ "]"
    | none => ""
  ts ++ " [" ++ FlatLogger.formatLevel message.level ++ "]" ++ componentPart ++ " " ++ formattedArgs

/- ------------------------------------------------------------------
The writers module of the Logger/Registry API (`writers.ts`).
Its `formatLog` computes the level label as
`LogLevel[options.level] ?? options.level`: the TypeScript reverse enum
lookup yields the enum name for the five known values and `undefined`
otherwise, in which case `??` substitutes the numeric level itself, which
the template literal renders in decimal.
------------------------------------------------------------------ -/

/-- Level label of `writers.ts`: `LogLevel[options.level] ?? options.level`
(enum name for known values, the decimal rendering of the number for
unknown ones). -/
def Writers.levelName (level : Nat) : String :=
  if level = 10 then "TRACE"
  else if level = 20 then "DEBUG"
  else if level = 30 then "INFO"
  else if level = 40 then "WARN"
  else if level = 50 then "ERROR"
  else toString level

/-- `formatLog` of `writers.ts`:
`` `${date} [${levelName}]${componentPart} ${format(...args)}` `` with the
same truthiness-based component segment as the flat variant. -/
def Writers.formatLog (ts : String) (options : LogOptions) (formattedArgs : String) : String :=
  let componentPart :=
    match options.component with
    | some c => if c = "" then "" else " [" ++ c ++ "]"
    | none => ""
  ts ++ " [" ++ Writers.levelName options.level ++ "]" ++ componentPart ++ " " ++ formattedArgs

/-- Spec-side helper used only to state level-segment theorems: the enum
name of the five known numeric levels, `none` otherwise. -/
def knownLevelName (level : Nat) : Option String :=
  if level = 10 then some "TRACE"
  else if level = 20 then some "DEBUG"
  else if level = 30 then some "INFO"
  else if level = 40 then some "WARN"
  else if level = 50 then some "ERROR"
  else none

/- ------------------------------------------------------------------
Theorems for claims C3, C4, C10.
------------------------------------------------------------------ -/

/-- C3 (counterexample): the claim says both writer families render an
unknown numeric level as the literal `LOG`; but for level 999 the
`writers.ts` formatter renders the decimal number `999`, while only the
legacy `logger.ts` formatter renders `LOG`. -/
theorem c3_unknown_level_not_LOG_in_writers :
    Writers.formatLog "T" { level := 999, component := none } "m" = "T [999] m" ∧
    FlatLogger.formatLog "T" { level := 999, component := none } "m" = "T [LOG] m" ∧
    ("T [999] m" : String) ≠ "T [LOG] m" := by
  refine ⟨rfl, rfl, by decide⟩

/-- C3 (amended): for the five known levels both formatters render the
enumeration name; for any other numeric level the legacy `logger.ts`
formatter renders `LOG` while the `writers.ts` formatter renders the
decimal numeric level itself. -/
theorem c3_level_segment_amended (level : Nat) :
    FlatLogger.formatLevel level = (knownLevelName level).getD "LOG" ∧
    Writers.levelName level = (knownLevelName level).getD (toString level) := by
  unfold FlatLogger.formatLevel Writers.levelName knownLevelName
  split_ifs <;> exact ⟨rfl, rfl⟩

/-- C4 (counterexample): the claim says a level filter built from an empty
levels list returns true for every record; but `selectedLevelLogFilter([])`
and `levelsFilter([])` test membership in an empty set, hence return false
(here on a record with level `INFO = 30`). -/
theorem c4_empty_level_filter_rejects :
    selectedLevelLogFilter [] { level := 30, component := none } = false ∧
    FlatLogger.levelsFilter [] 30 = false := by
  exact ⟨rfl, rfl⟩

/-- C4 (amended): the component filter factories with an empty allow-list
return true for every record (allow all), but the level filter factories
with an empty levels list return false for every record (membership in an
empty set); only the component half of the claim holds. -/
theorem c4_empty_allow_list_amended (options : LogOptions) (level : Nat)
    (component : Option String) :
    componentMatchingLogFilter [] options = true ∧
    FlatLogger.componentFilter [] component = true ∧
    selectedLevelLogFilter [] options = false ∧
    FlatLogger.levelsFilter [] level = false := by
  refine ⟨rfl, rfl, ?_, ?_⟩
  · simp [selectedLevelLogFilter, List.contains]
  · simp [FlatLogger.levelsFilter, List.contains]

/-- C10: a record whose component is the empty string formats exactly like
a record with no component at all (the check is truthiness-based), in both
formatter variants; a non-empty component yields the `[component]`
segment. -/
theorem c10_empty_component_omitted (ts : String) (level : Nat)
    (formattedArgs : String) (c : String) (hc : c ≠ "") :
    Writers.formatLog ts { level := level, component := some "" } formattedArgs =
      Writers.formatLog ts { level := level, component := none } formattedArgs ∧
    FlatLogger.formatLog ts { level := level, component := some "" } formattedArgs =
      FlatLogger.formatLog ts { level := level, component := none } formattedArgs ∧
    Writers.formatLog ts { level := level, component := some c } formattedArgs =
      ts ++ " [" ++ Writers.levelName level ++ "]" ++ (" [" ++ c ++ "]") ++ " " ++ formattedArgs ∧
    FlatLogger.formatLog ts { level := level, component := some c } formattedArgs =
      ts ++ " [" ++ FlatLogger.formatLevel level ++ "]" ++ (" [" ++ c ++ "]") ++ " " ++ formattedArgs := by
  refine ⟨rfl, rfl, ?_, ?_⟩
  · simp [Writers.formatLog, hc]
  · simp [FlatLogger.formatLog, hc]

/-- C10 (witness): concrete instance of `c10_empty_component_omitted` with
component `"ui"` at level `INFO`. -/
theorem c10_empty_component_omitted_witness :
    Writers.formatLog "T" { level := 30, component := some "" } "m" =
      Writers.formatLog "T" { level := 30, component := none } "m" :=
  (c10_empty_component_omitted "T" 30 "m" "ui" (by decide)).1

/- ------------------------------------------------------------------
The Logger of `packages/debug/src/log/Logger.ts`.

The private `Map<symbol, LogFilter>` is embedded as an association list in
insertion order; `Symbol('log-filter')` handles are embedded as naturals
drawn from a per-logger counter (`nextHandle`), which preserves the only
observable property of symbols here: freshness.  The sink (`logWriter`) is
embedded as an opaque tag `Nat`; `Logger.log` returns the list of sink
invocations `(writer tag, record, payload)` it performs.
------------------------------------------------------------------ -/

/-- One sink invocation: the logger's writer tag, the record, the payload. -/
abbrev SinkCall := Nat × LogOptions × Payload

/-- Logger state: combination mode, sink tag, filter map (insertion-ordered
association list keyed by handle), and the fresh-handle counter. -/
structure Logger where
  mode : FilterMode
  logWriter : Nat
  filters : List (Nat × LogFilter)
  nextHandle : Nat

/-- `Logger.shouldWrite`: true when the filter map is empty; with mode
`any` true iff some filter accepts; otherwise (mode `all`) true iff every
filter accepts — a direct translation of the two short-circuiting loops. -/
def Logger.shouldWrite (lg : Logger) (options : LogOptions) : Bool :=
  if lg.filters.length = 0 then true
  else
    match lg.mode with
    | FilterMode.any => lg.filters.any fun p => p.2 options
    | FilterMode.all => lg.filters.all fun p => p.2 options

/-- `Logger.log`: invokes the sink once with the record and payload when
`shouldWrite` passes, otherwise performs no write. -/
def Logger.log (lg : Logger) (options : LogOptions) (args : Payload) : List SinkCall :=
  if lg.shouldWrite options then [(lg.logWriter, options, args)] else []

/-- `Logger.addFilter`: allocates a fresh handle, stores the filter under
it (a `Map.set` with a fresh key appends in iteration order), and returns
the handle together with the updated logger. -/
def Logger.addFilter (lg : Logger) (filter : LogFilter) : Nat × Logger :=
  (lg.nextHandle,
   { lg with
       filters := lg.filters ++ [(lg.nextHandle, filter)]
       nextHandle := lg.nextHandle + 1 })

/-- `Logger.removeFilter`: `Map.delete` — returns whether an entry with the
handle was present, and the logger without that entry. -/
def Logger.removeFilter (lg : Logger) (handle : Nat) : Bool × Logger :=
  (lg.filters.any fun p => p.1 = handle,
   { lg with filters := lg.filters.filter fun p => ¬ p.1 = handle })

/-- `Logger.clearFilters`: `Map.clear`. -/
def Logger.clearFilters (lg : Logger) : Logger :=
  { lg with filters := [] }

/-- Logger states reachable from construction (`new Logger(mode, writer, _)`
starts with an empty filter map), paired with the list of handles the
logger's `addFilter` has returned so far. -/
inductive ReachedIss : Logger → List Nat → Prop where
  | start (mode : FilterMode) (writer : Nat) :
      ReachedIss { mode := mode, logWriter := writer, filters := [], nextHandle := 0 } []
  | add {lg : Logger} {iss : List Nat} (filter : LogFilter) :
      ReachedIss lg iss →
      ReachedIss (lg.addFilter filter).2 (iss ++ [(lg.addFilter filter).1])
  | remove {lg : Logger} {iss : List Nat} (handle : Nat) :
      ReachedIss lg iss →
      ReachedIss (lg.removeFilter handle).2 iss
  | clear {lg : Logger} {iss : List Nat} :
      ReachedIss lg iss →
      ReachedIss lg.clearFilters iss

/-- Invariant of reachable logger states: every key of the filter map is a
handle that was previously returned by `addFilter`, and every issued handle
is below the fresh counter. -/
theorem reachedIss_invariant {lg : Logger} {iss : List Nat}
    (h : ReachedIss lg iss) :
    (∀ p ∈ lg.filters, p.1 ∈ iss) ∧ (∀ k ∈ iss, k < lg.nextHandle) := by
  induction h with
  | start mode writer => exact ⟨by simp, by simp⟩
  | add filter h ih =>
      constructor
      · intro p hp
        simp only [Logger.addFilter, List.mem_append, List.mem_singleton] at hp ⊢
        rcases hp with hp | hp
        · exact Or.inl (ih.1 p hp)
        · exact Or.inr (by simp [hp])
      · intro k hk
        simp only [Logger.addFilter, List.mem_append, List.mem_singleton] at hk
        rcases hk with hk | hk
        · exact Nat.lt_succ_of_lt (ih.2 k hk)
        · simp [Logger.addFilter, hk]
  | remove handle h ih =>
      constructor
      · intro p hp
        simp only [Logger.removeFilter, List.mem_filter] at hp
        exact ih.1 p hp.1
      · intro k hk
        exact ih.2 k hk
  | clear h ih =>
      exact ⟨by simp [Logger.clearFilters], fun k hk => ih.2 k hk⟩

/-- C1: `Logger.log` invokes the sink exactly once with the record and the
payload when the combination policy passes and performs no write
otherwise; the policy passes iff the filter map is empty (vacuous pass),
or mode is `all` and every filter accepts, or mode is `any` and at least
one filter accepts. -/
theorem c1_log_policy (lg : Logger) (options : LogOptions) (args : Payload) :
    Logger.log lg options args =
      (if lg.shouldWrite options then [(lg.logWriter, options, args)] else []) ∧
    (lg.shouldWrite options = true ↔
      (lg.filters = [] ∨
       (lg.mode = FilterMode.all ∧ ∀ p ∈ lg.filters, p.2 options = true) ∨
       (lg.mode = FilterMode.any ∧ ∃ p ∈ lg.filters, p.2 options = true))) := by
  refine ⟨rfl, ?_⟩
  unfold Logger.shouldWrite
  rcases hfs : lg.filters with _ | ⟨p0, rest⟩
  · simp
  · rcases hm : lg.mode with _ | _
    · simp [List.all_eq_true]
    · simp [List.any_eq_true]

/-- C7: `removeFilter` returns true iff an entry with the handle is
present, and removes it; on a reachable logger state, a handle never
returned by that logger's `addFilter` is absent, so `removeFilter` returns
false for it; after a successful removal a second `removeFilter` with the
same handle returns false. -/
theorem c7_removeFilter_spec {lg : Logger} {iss : List Nat}
    (h : ReachedIss lg iss) (handle : Nat) :
    ((lg.removeFilter handle).1 = true ↔ handle ∈ lg.filters.map Prod.fst) ∧
    (handle ∉ (lg.removeFilter handle).2.filters.map Prod.fst) ∧
    (handle ∉ iss → (lg.removeFilter handle).1 = false) ∧
    (((lg.removeFilter handle).2.removeFilter handle).1 = false) := by
  have hpresent : (lg.removeFilter handle).1 = true ↔ handle ∈ lg.filters.map Prod.fst := by
    simp only [Logger.removeFilter, List.any_eq_true, List.mem_map]
    constructor
    · rintro ⟨p, hp, he⟩
      exact ⟨p, hp, by simpa using he⟩
    · rintro ⟨p, hp, he⟩
      exact ⟨p, hp, by simpa using he⟩
  have hgone : handle ∉ (lg.removeFilter handle).2.filters.map Prod.fst := by
    simp only [Logger.removeFilter, List.mem_map]
    rintro ⟨p, hp, he⟩
    rw [List.mem_filter] at hp
    have := hp.2
    simp [he] at this
  refine ⟨hpresent, hgone, ?_, ?_⟩
  · intro hni
    rcases hb : (lg.removeFilter handle).1 with _ | _
    · rfl
    · exfalso
      have hmem := hpresent.mp hb
      rw [List.mem_map] at hmem
      rcases hmem with ⟨p, hp, he⟩
      exact hni (he ▸ (reachedIss_invariant h).1 p hp)
  · rcases hb : ((lg.removeFilter handle).2.removeFilter handle).1 with _ | _
    · rfl
    · exfalso
      have : handle ∈ (lg.removeFilter handle).2.filters.map Prod.fst := by
        have hpresent2 :
            ((lg.removeFilter handle).2.removeFilter handle).1 = true ↔
              handle ∈ (lg.removeFilter handle).2.filters.map Prod.fst := by
          simp only [Logger.removeFilter, List.any_eq_true, List.mem_map]
          constructor
          · rintro ⟨p, hp, he⟩
            exact ⟨p, hp, by simpa using he⟩
          · rintro ⟨p, hp, he⟩
            exact ⟨p, hp, by simpa using he⟩
        exact hpresent2.mp hb
      exact hgone this

/-- C7 (witness): on the concrete reachable logger that issued exactly
handle 0, removing the never-issued handle 5 returns false. -/
theorem c7_removeFilter_spec_witness :
    ((Logger.mk FilterMode.all 0 [(0, fun _ => true)] 1).removeFilter 5).1 = false :=
  (c7_removeFilter_spec
    (ReachedIss.add (fun _ => true) (ReachedIss.start FilterMode.all 0)) 5).2.2.1
    (by decide)

/- ------------------------------------------------------------------
The LoggerRegistry of `LoggerRegistry.ts`.

The registry's `Set<Logger>` is embedded as an insertion-ordered list of
loggers keyed by a fresh `Nat` id standing for JavaScript object identity;
`Logger.stop()` calls the `unregister` closure, which is
`this.loggers.delete(c)` — embedded as removal by id.

The registry module imports `selectedLevelsLogFilter`, `minLevelLogFilter`
and `componentsLogFilter` from its sibling `filters.ts`, whose text for
the first and third name is not part of the corpus (only this caller and
the package index re-export them); they are modelled from the spec below.
------------------------------------------------------------------ -/

/-- Modelled from the spec: `selectedLevelsLogFilter(levels)` of the
registry variant's `filters.ts` (absent from the corpus) — "passes iff
`record.level ∈ levels` (levels treated as a set; duplicates ignored)".
It matches the sibling implementation `selectedLevelLogFilter`. -/
def selectedLevelsLogFilter (levels : List Nat) : LogFilter :=
  fun options => levels.contains options.level

/-- Modelled from the spec: `componentsLogFilter(components)` of the
registry variant's `filters.ts` (absent from the corpus) — "if
`components` is empty, always passes. Otherwise passes iff
`record.component` is defined AND is a member of `components`".  It
matches the sibling implementation `componentMatchingLogFilter`. -/
def componentsLogFilter (components : List String) : LogFilter :=
  if components.isEmpty then fun _ => true
  else fun options =>
    match options.component with
    | some c => components.contains c
    | none => false

/-- `LoggerConfig` of `types.ts`: optional fields are `Option`s; the
destructuring defaults (`mode = 'all'`, `levels = []`, `components = []`,
`filters = []`) are applied inside `startLogger`.  `logWriter` is the
opaque sink tag. -/
structure LoggerConfig where
  logWriter : Nat
  mode : Option FilterMode
  levels : Option (List Nat)
  minLevel : Option Nat
  components : Option (List String)
  filters : Option (List LogFilter)

/-- Registry state: insertion-ordered set of registered loggers keyed by
identity ids, plus the fresh-id counter. -/
structure LoggerRegistry where
  loggers : List (Nat × Logger)
  nextId : Nat

/-- `LoggerRegistry.reset`: `this.loggers.clear()`. -/
def LoggerRegistry.reset (r : LoggerRegistry) : LoggerRegistry :=
  { r with loggers := [] }

/-- `LoggerRegistry.startLogger`: applies the destructuring defaults,
constructs a Logger with an empty filter map, adds the level filter
(explicit levels if non-empty, else min-level if defined, else none), then
the component filter, then each caller-supplied filter, registers the
logger and returns it. -/
def LoggerRegistry.startLogger (r : LoggerRegistry) (config : LoggerConfig) :
    LoggerRegistry × Logger :=
  let mode := config.mode.getD FilterMode.all
  let levels := config.levels.getD []
  let components := config.components.getD []
  let fs := config.filters.getD []
  let lg0 : Logger :=
    { mode := mode, logWriter := config.logWriter, filters := [], nextHandle := 0 }
  let lg1 :=
    if 0 < levels.length then (lg0.addFilter (selectedLevelsLogFilter levels)).2
    else
      match config.minLevel with
      | some m => (lg0.addFilter (minLevelLogFilter m)).2
      | none => lg0
  let lg2 := (lg1.addFilter (componentsLogFilter components)).2
  let lg3 := fs.foldl (fun lg f => (lg.addFilter f).2) lg2
  ({ r with loggers := r.loggers ++ [(r.nextId, lg3)], nextId := r.nextId + 1 }, lg3)

/-- `Logger.stop()` / the registry's unregister closure:
`this.loggers.delete(c)`, removal of one logger (by identity id) from the
fan-out set.  Nothing else is touched. -/
def LoggerRegistry.stopLogger (r : LoggerRegistry) (id : Nat) : LoggerRegistry :=
  { r with loggers := r.loggers.filter fun p => ¬ p.1 = id }

/-- `LoggerRegistry.log`: iterates the registered set in order and calls
`log` on each logger, concatenating the performed sink invocations. -/
def LoggerRegistry.log (r : LoggerRegistry) (options : LogOptions) (args : Payload) :
    List SinkCall :=
  r.loggers.flatMap fun p => p.2.log options args

/-- Folding `addFilter` over a list of filters appends exactly those
filters (in order) to the filter map and leaves mode and sink unchanged. -/
theorem foldl_addFilter_spec (fs : List LogFilter) (lg : Logger) :
    ((fs.foldl (fun lg f => (lg.addFilter f).2) lg).filters.map Prod.snd
      = lg.filters.map Prod.snd ++ fs) ∧
    (fs.foldl (fun lg f => (lg.addFilter f).2) lg).mode = lg.mode ∧
    (fs.foldl (fun lg f => (lg.addFilter f).2) lg).logWriter = lg.logWriter := by
  induction fs generalizing lg with
  | nil => simp
  | cons f fs ih =>
      have h := ih (lg.addFilter f).2
      simp only [List.foldl_cons] at *
      refine ⟨?_, ?_, ?_⟩
      · rw [h.1]
        simp [Logger.addFilter]
      · rw [h.2.1]
        rfl
      · rw [h.2.2]
        rfl

/-- The filter list (in order) of a logger built by `startLogger`. -/
theorem startLogger_filters_map_snd (r : LoggerRegistry) (config : LoggerConfig) :
    ((r.startLogger config).2).filters.map Prod.snd =
      (if 0 < (config.levels.getD []).length
        then [selectedLevelsLogFilter (config.levels.getD [])]
        else
          match config.minLevel with
          | some m => [minLevelLogFilter m]
          | none => []) ++
      [componentsLogFilter (config.components.getD [])] ++
      config.filters.getD [] := by
  unfold LoggerRegistry.startLogger
  by_cases hl : 0 < (config.levels.getD []).length
  · simp only [hl, if_true]
    rw [(foldl_addFilter_spec _ _).1]
    simp [Logger.addFilter]
  · rcases hm : config.minLevel with _ | m
    · simp only [hl, if_false, hm]
      rw [(foldl_addFilter_spec _ _).1]
      simp [Logger.addFilter]
    · simp only [hl, if_false, hm]
      rw [(foldl_addFilter_spec _ _).1]
      simp [Logger.addFilter]

/-- The mode of a logger built by `startLogger` is the configured mode
(default `all`). -/
theorem startLogger_mode (r : LoggerRegistry) (config : LoggerConfig) :
    ((r.startLogger config).2).mode = config.mode.getD FilterMode.all := by
  unfold LoggerRegistry.startLogger
  by_cases hl : 0 < (config.levels.getD []).length
  · simp only [hl, if_true]
    rw [(foldl_addFilter_spec _ _).2.1]
    simp [Logger.addFilter]
  · rcases hm : config.minLevel with _ | m
    · simp only [hl, if_false, hm]
      rw [(foldl_addFilter_spec _ _).2.1]
      simp [Logger.addFilter]
    · simp only [hl, if_false, hm]
      rw [(foldl_addFilter_spec _ _).2.1]
      simp [Logger.addFilter]

/-- C2: the filter set of a logger created by `startLogger` is exactly:
one level filter — the explicit-levels filter when `levels` is non-empty,
else the min-level filter when `minLevel` is defined, else no level filter
— followed by exactly one component filter (present even when the
allow-list defaults to empty), followed by the caller-supplied filters in
order. -/
theorem c2_startLogger_filter_set (r : LoggerRegistry) (config : LoggerConfig) :
    ((r.startLogger config).2).filters.map Prod.snd =
      (if 0 < (config.levels.getD []).length
        then [selectedLevelsLogFilter (config.levels.getD [])]
        else
          match config.minLevel with
          | some m => [minLevelLogFilter m]
          | none => []) ++
      [componentsLogFilter (config.components.getD [])] ++
      config.filters.getD [] :=
  startLogger_filters_map_snd r config

/-- C6: a logger started with mode `any` and an empty (or omitted)
component allow-list accepts every record, whatever `levels`, `minLevel`
or extra filters say: the always-true component filter is in the
(non-empty) filter map, and `any` mode passes as soon as one filter
accepts. -/
theorem c6_any_mode_empty_components (r : LoggerRegistry) (config : LoggerConfig)
    (hm : config.mode = some FilterMode.any)
    (hc : config.components.getD [] = [])
    (options : LogOptions) :
    ((r.startLogger config).2).shouldWrite options = true := by
  have hfil := startLogger_filters_map_snd r config
  rw [hc] at hfil
  have hmem : componentsLogFilter [] ∈ ((r.startLogger config).2).filters.map Prod.snd := by
    rw [hfil]
    simp
  rw [List.mem_map] at hmem
  rcases hmem with ⟨p, hp, hpe⟩
  have hmode : ((r.startLogger config).2).mode = FilterMode.any := by
    rw [startLogger_mode, hm]
    rfl
  unfold Logger.shouldWrite
  rcases hfs : ((r.startLogger config).2).filters with _ | ⟨p0, rest⟩
  · rw [hfs] at hp
    simp at hp
  · simp only [List.length_cons, Nat.succ_ne_zero, ite_false, hmode,
      reduceIte]
    have : p.2 options = true := by
      rw [hpe]
      rfl
    rw [hfs] at hp
    simp only [List.any_eq_true]
    exact ⟨p, hp, this⟩

/-- C6 (witness): a concrete registry/config with mode `any`, omitted
components, a levels list that matches no record, and an always-false
custom filter still accepts a record at level `TRACE`. -/
theorem c6_any_mode_empty_components_witness :
    ((LoggerRegistry.startLogger { loggers := [], nextId := 0 }
        { logWriter := 0, mode := some FilterMode.any, levels := some [999],
          minLevel := none, components := none,
          filters := some [fun _ => false] }).2).shouldWrite
      { level := 10, component := none } = true :=
  c6_any_mode_empty_components { loggers := [], nextId := 0 }
    { logWriter := 0, mode := some FilterMode.any, levels := some [999],
      minLevel := none, components := none, filters := some [fun _ => false] }
    rfl rfl { level := 10, component := none }

/-- C8: `reset` and `stop` only shrink the registry's fan-out set: after
`reset` the set is empty and fan-out writes nothing; after stopping id,
fan-out is exactly the fan-out of the remaining loggers; every surviving
entry is kept with its state untouched; and the removed logger value
itself still applies its filters and sink when `log` is invoked on it
directly. -/
theorem c8_reset_stop_frame (r : LoggerRegistry) (id : Nat)
    (options : LogOptions) (args : Payload) :
    (r.reset).loggers = [] ∧
    (r.reset).log options args = [] ∧
    (r.stopLogger id).loggers = r.loggers.filter (fun p => ¬ p.1 = id) ∧
    ((r.stopLogger id).log options args
      = (r.loggers.filter fun p => ¬ p.1 = id).flatMap fun p => p.2.log options args) ∧
    (∀ p ∈ r.loggers, ¬ p.1 = id → p ∈ (r.stopLogger id).loggers) ∧
    (∀ p ∈ r.loggers, p.1 = id →
      Logger.log p.2 options args
        = if p.2.shouldWrite options then [(p.2.logWriter, options, args)] else []) := by
  refine ⟨rfl, rfl, rfl, rfl, ?_, ?_⟩
  · intro p hp hid
    simp only [LoggerRegistry.stopLogger, List.mem_filter]
    exact ⟨hp, by simpa using hid⟩
  · intro p _ _
    rfl

/-- C8 (witness): a concrete two-logger registry; after stopping id 1 the
entry with id 0 is still registered. -/
theorem c8_reset_stop_frame_witness :
    ((0 : Nat), Logger.mk FilterMode.all 3 [] 0) ∈
      ((LoggerRegistry.mk
          [(0, Logger.mk FilterMode.all 3 [] 0), (1, Logger.mk FilterMode.any 4 [] 0)] 2
        ).stopLogger 1).loggers :=
  (c8_reset_stop_frame
      (LoggerRegistry.mk
        [(0, Logger.mk FilterMode.all 3 [] 0), (1, Logger.mk FilterMode.any 4 [] 0)] 2)
      1 { level := 30, component := none } ["m"]).2.2.2.2.1
    (0, Logger.mk FilterMode.all 3 [] 0) (by simp) (by decide)

/- ------------------------------------------------------------------
File sink failure semantics (`fileLogWriter` of `writers.ts`).

`fileLogWriter(filePath)` closes over a per-instance `hasLoggedError`
flag.  Each call formats the message, tries `appendFileSync`, and on a
throw falls back to `console.error(message)` plus — only when the flag is
still unset — one diagnostic `console.error` naming the path and the
error, after which the flag is set.  Whether the append throws (and with
which error message) is external behaviour, passed in as
`appendError : Option String`.  The `catch` means the call itself always
returns; accordingly the embedding is a total function.
------------------------------------------------------------------ -/

/-- Observable effects of the file sink: a file append, a plain
`console.error` line, or the one-time `console.error` diagnostic (the
`[LOG ERROR] Failed to write to log file ...` line naming the path and the
underlying error message). -/
inductive WriteEvent where
  | fileAppend (path : String) (data : String)
  | consoleLine (line : String)
  | consoleDiag (path : String) (errMsg : String)
deriving DecidableEq, Repr

/-- One invocation of a file sink: the call inputs (timestamp, record,
rendered args) plus the external append outcome (`none` = success,
`some e` = `appendFileSync` threw with message `e`). -/
structure FileWriteCall where
  ts : String
  options : LogOptions
  formattedArgs : String
  appendError : Option String
deriving DecidableEq, Repr

/-- Whether the append threw on this call. -/
def FileWriteCall.fails (c : FileWriteCall) : Bool :=
  c.appendError.isSome

/-- One call of the sink returned by `fileLogWriter(filePath)`: on success
append `message + '\n'`; on a throw emit the fallback console line and, if
the per-instance flag is unset, the single diagnostic, setting the flag. -/
def Writers.fileWriterStep (filePath : String) (hasLoggedError : Bool)
    (c : FileWriteCall) : List WriteEvent × Bool :=
  let message := Writers.formatLog c.ts c.options c.formattedArgs
  match c.appendError with
  | none => ([WriteEvent.fileAppend filePath (message ++ "\n")], hasLoggedError)
  | some err =>
      (WriteEvent.consoleLine message ::
        (if hasLoggedError then [] else [WriteEvent.consoleDiag filePath err]), true)

/-- A sequence of calls through one `fileLogWriter(filePath)` instance,
threading the per-instance `hasLoggedError` flag. -/
def Writers.fileWriterRun (filePath : String) (hasLoggedError : Bool) :
    List FileWriteCall → List WriteEvent × Bool
  | [] => ([], hasLoggedError)
  | c :: rest =>
      let step := Writers.fileWriterStep filePath hasLoggedError c
      let next := Writers.fileWriterRun filePath step.2 rest
      (step.1 ++ next.1, next.2)

/-- Recogniser for the diagnostic event. -/
def isDiagEvent : WriteEvent → Bool
  | WriteEvent.consoleDiag _ _ => true
  | _ => false

/-- The flag after a run is set iff it started set or some append threw. -/
theorem fileWriterRun_flag (filePath : String) (b : Bool) (calls : List FileWriteCall) :
    (Writers.fileWriterRun filePath b calls).2 = (b || calls.any FileWriteCall.fails) := by
  induction calls generalizing b with
  | nil => simp [Writers.fileWriterRun]
  | cons c rest ih =>
      rcases hc : c.appendError with _ | err
      · simp [Writers.fileWriterRun, Writers.fileWriterStep, hc, ih,
          FileWriteCall.fails]
      · simp [Writers.fileWriterRun, Writers.fileWriterStep, hc, ih,
          FileWriteCall.fails]

/-- The diagnostics emitted by a run: none when the flag started set,
otherwise exactly one, carrying the path and the error message of the
first failing call. -/
theorem fileWriterRun_diag (filePath : String) (b : Bool) (calls : List FileWriteCall) :
    (Writers.fileWriterRun filePath b calls).1.filter isDiagEvent =
      (if b then []
       else
        match calls.find? FileWriteCall.fails with
        | some c => [WriteEvent.consoleDiag filePath (c.appendError.getD "")]
        | none => []) := by
  induction calls generalizing b with
  | nil => simp [Writers.fileWriterRun]
  | cons c rest ih =>
      rcases hc : c.appendError with _ | err
      · have hf : c.fails = false := by simp [FileWriteCall.fails, hc]
        rcases b with _ | _
        · simp [Writers.fileWriterRun, Writers.fileWriterStep, hc, ih,
            isDiagEvent, List.find?, hf]
        · simp [Writers.fileWriterRun, Writers.fileWriterStep, hc, ih,
            isDiagEvent, List.find?, hf]
      · have hf : c.fails = true := by simp [FileWriteCall.fails, hc]
        rcases b with _ | _
        · simp [Writers.fileWriterRun, Writers.fileWriterStep, hc, ih,
            isDiagEvent, List.find?, hf]
        · simp [Writers.fileWriterRun, Writers.fileWriterStep, hc, ih,
            isDiagEvent, List.find?, hf]

/-- Every event emitted by a step is also emitted by any run containing
the call; stated directly for the two per-call guarantees needed below. -/
theorem fileWriterRun_mem (filePath : String) (b : Bool) (calls : List FileWriteCall) :
    (∀ c ∈ calls, c.fails = true →
      WriteEvent.consoleLine (Writers.formatLog c.ts c.options c.formattedArgs)
        ∈ (Writers.fileWriterRun filePath b calls).1) ∧
    (∀ c ∈ calls, c.appendError = none →
      WriteEvent.fileAppend filePath
          (Writers.formatLog c.ts c.options c.formattedArgs ++ "\n")
        ∈ (Writers.fileWriterRun filePath b calls).1) := by
  induction calls generalizing b with
  | nil => exact ⟨by simp, by simp⟩
  | cons c rest ih =>
      constructor
      · intro d hd hfail
        rw [List.mem_cons] at hd
        rcases hd with rfl | hd
        · rcases hc : d.appendError with _ | err
          · simp [FileWriteCall.fails, hc] at hfail
          · simp only [Writers.fileWriterRun, Writers.fileWriterStep, hc]
            exact List.mem_append_left _ (List.mem_cons_self _ _)
        · rcases hc : c.appendError with _ | err
          · simp only [Writers.fileWriterRun, Writers.fileWriterStep, hc]
            exact List.mem_append_right _ ((ih b).1 d hd hfail)
          · simp only [Writers.fileWriterRun, Writers.fileWriterStep, hc]
            exact List.mem_append_right _ ((ih true).1 d hd hfail)
      · intro d hd hok
        rw [List.mem_cons] at hd
        rcases hd with rfl | hd
        · simp only [Writers.fileWriterRun, Writers.fileWriterStep, hok]
          exact List.mem_append_left _ (List.mem_cons_self _ _)
        · rcases hc : c.appendError with _ | err
          · simp only [Writers.fileWriterRun, Writers.fileWriterStep, hc]
            exact List.mem_append_right _ ((ih b).2 d hd hok)
          · simp only [Writers.fileWriterRun, Writers.fileWriterStep, hc]
            exact List.mem_append_right _ ((ih true).2 d hd hok)

/-- C5: over any call sequence through one fresh `fileLogWriter(filePath)`
instance (flag initially unset): every failing call emits the original
formatted message as a console fallback; the diagnostics across the whole
run are exactly one event — at the first failing call, naming the path and
that call's error message — or none when no call fails; later failures
repeat only the fallback; the flag ends set iff some call failed; and
every call returns normally (the run is a total function, no failure is
surfaced). -/
theorem c5_file_sink_failure (filePath : String) (calls : List FileWriteCall) :
    ((Writers.fileWriterRun filePath false calls).1.filter isDiagEvent =
      (match calls.find? FileWriteCall.fails with
       | some c => [WriteEvent.consoleDiag filePath (c.appendError.getD "")]
       | none => [])) ∧
    ((Writers.fileWriterRun filePath false calls).2 = calls.any FileWriteCall.fails) ∧
    (∀ c ∈ calls, c.fails = true →
      WriteEvent.consoleLine (Writers.formatLog c.ts c.options c.formattedArgs)
        ∈ (Writers.fileWriterRun filePath false calls).1) ∧
    (∀ c ∈ calls, c.appendError = none →
      WriteEvent.fileAppend filePath
          (Writers.formatLog c.ts c.options c.formattedArgs ++ "\n")
        ∈ (Writers.fileWriterRun filePath false calls).1) := by
  refine ⟨?_, ?_, (fileWriterRun_mem filePath false calls).1,
    (fileWriterRun_mem filePath false calls).2⟩
  · simpa using fileWriterRun_diag filePath false calls
  · simpa using fileWriterRun_flag filePath false calls

/-- C5 (witness): two consecutive failing calls — the second one's
fallback console line is among the run's events (and, per the theorem's
other conjuncts, only the first call's diagnostic is). -/
theorem c5_file_sink_failure_witness :
    WriteEvent.consoleLine
        (Writers.formatLog "T2" { level := 40, component := none } "b")
      ∈ (Writers.fileWriterRun "/tmp/app.log" false
          [{ ts := "T1", options := { level := 30, component := none },
             formattedArgs := "a", appendError := some "boom" },
           { ts := "T2", options := { level := 40, component := none },
             formattedArgs := "b", appendError := some "later" }]).1 :=
  (c5_file_sink_failure "/tmp/app.log"
      [{ ts := "T1", options := { level := 30, component := none },
         formattedArgs := "a", appendError := some "boom" },
       { ts := "T2", options := { level := 40, component := none },
         formattedArgs := "b", appendError := some "later" }]).2.2.1
    { ts := "T2", options := { level := 40, component := none },
      formattedArgs := "b", appendError := some "later" }
    (by decide) (by decide)

/- ------------------------------------------------------------------
Exception propagation through the fan-out loop (claim C9).

`LoggerRegistry.log` is a bare `for` loop calling `logger.log` on each
registered logger with no try/catch, and `Logger.log`/`shouldWrite`
likewise call user filters and the sink unguarded.  To observe exceptions
the relevant functions are re-embedded with fallible filters and sinks in
`Except String`: a throwing filter or sink aborts the enclosing call with
its error.  `registryLogFanout` returns the sink output emitted before the
throw together with `some error` when a logger threw (the exception the
caller of `LoggerRegistry.log` sees), or all output and `none` otherwise.
------------------------------------------------------------------ -/

/-- A user filter that may throw. -/
abbrev EFilter := LogOptions → Except String Bool

/-- A sink that may throw; on success it yields its emitted output. -/
abbrev EWriter := LogOptions → Payload → Except String (List String)

/-- A registered logger in the fallible embedding. -/
structure ELogger where
  mode : FilterMode
  filters : List EFilter
  writer : EWriter

/-- The `any`-mode loop of `shouldWrite`: short-circuits on the first
accepting filter; a throwing filter aborts the evaluation. -/
def ELogger.anyFilter : List EFilter → LogOptions → Except String Bool
  | [], _ => Except.ok false
  | f :: fs, options =>
      match f options with
      | Except.error e => Except.error e
      | Except.ok true => Except.ok true
      | Except.ok false => ELogger.anyFilter fs options

/-- The `all`-mode loop of `shouldWrite`: short-circuits on the first
rejecting filter; a throwing filter aborts the evaluation. -/
def ELogger.allFilter : List EFilter → LogOptions → Except String Bool
  | [], _ => Except.ok true
  | f :: fs, options =>
      match f options with
      | Except.error e => Except.error e
      | Except.ok false => Except.ok false
      | Except.ok true => ELogger.allFilter fs options

/-- `Logger.shouldWrite` in the fallible embedding. -/
def ELogger.shouldWrite (lg : ELogger) (options : LogOptions) : Except String Bool :=
  if lg.filters.length = 0 then Except.ok true
  else
    match lg.mode with
    | FilterMode.any => ELogger.anyFilter lg.filters options
    | FilterMode.all => ELogger.allFilter lg.filters options

/-- `Logger.log` in the fallible embedding: evaluate the policy, then call
the sink; a throw in either place propagates. -/
def ELogger.log (lg : ELogger) (options : LogOptions) (args : Payload) :
    Except String (List String) :=
  match lg.shouldWrite options with
  | Except.error e => Except.error e
  | Except.ok true => lg.writer options args
  | Except.ok false => Except.ok []

/-- The output a logger contributes when its `log` succeeds (empty when it
throws). -/
def ELogger.okOutput (lg : ELogger) (options : LogOptions) (args : Payload) : List String :=
  match lg.log options args with
  | Except.ok out => out
  | Except.error _ => []

/-- `LoggerRegistry.log` in the fallible embedding: the unguarded `for`
loop — on the first logger whose `log` throws, the loop stops and the
error propagates to the caller; otherwise outputs concatenate. -/
def registryLogFanout : List ELogger → LogOptions → Payload → List String × Option String
  | [], _, _ => ([], none)
  | lg :: rest, options, args =>
      match lg.log options args with
      | Except.error e => ([], some e)
      | Except.ok out =>
          let next := registryLogFanout rest options args
          (out ++ next.1, next.2)

/-- Unfolding of the fan-out loop over a logger whose `log` succeeds. -/
theorem registryLogFanout_cons_ok (lg : ELogger) (rest : List ELogger)
    (options : LogOptions) (args : Payload) (out : List String)
    (hok : lg.log options args = Except.ok out) :
    registryLogFanout (lg :: rest) options args =
      (out ++ (registryLogFanout rest options args).1,
       (registryLogFanout rest options args).2) := by
  simp only [registryLogFanout, hok]

/-- C9: when a registered logger's filter or sink throws during the
fan-out, the exception propagates to the caller of `LoggerRegistry.log`
(the `some e` outcome) and the loggers after the throwing one are not
invoked: the result carries only the output of the loggers before it and
is independent of `post`. -/
theorem c9_fanout_exception_propagates (pre : List ELogger) (bad : ELogger)
    (post : List ELogger) (options : LogOptions) (args : Payload) (e : String)
    (hpre : ∀ lg ∈ pre, ∃ out, lg.log options args = Except.ok out)
    (hbad : bad.log options args = Except.error e) :
    registryLogFanout (pre ++ bad :: post) options args =
      (pre.flatMap fun lg => lg.okOutput options args, some e) := by
  induction pre with
  | nil =>
      simp only [List.nil_append, registryLogFanout, hbad, List.flatMap_nil]
  | cons lg pre ih =>
      rcases hpre lg (List.mem_cons_self lg pre) with ⟨out, hok⟩
      have hrest : ∀ l ∈ pre, ∃ out, l.log options args = Except.ok out :=
        fun l hl => hpre l (List.mem_cons_of_mem lg hl)
      rw [List.cons_append, registryLogFanout_cons_ok lg _ options args out hok,
        ih hrest, List.flatMap_cons]
      simp [ELogger.okOutput, hok]

/-- C9 (witness): a one-logger prefix that throws in its filter, followed
by a logger whose sink would emit output — the fan-out returns no output
and surfaces the filter's error, showing the second logger was never
invoked. -/
theorem c9_fanout_exception_propagates_witness :
    registryLogFanout
        [{ mode := FilterMode.all,
           filters := [fun _ => Except.error "filter boom"],
           writer := fun _ _ => Except.ok [] },
         { mode := FilterMode.all, filters := [],
           writer := fun _ _ => Except.ok ["should not appear"] }]
        { level := 30, component := none } ["m"] =
      ([], some "filter boom") :=
  c9_fanout_exception_propagates []
    { mode := FilterMode.all,
      filters := [fun _ => Except.error "filter boom"],
      writer := fun _ _ => Except.ok [] }
    [{ mode := FilterMode.all, filters := [],
       writer := fun _ _ => Except.ok ["should not appear"] }]
    { level := 30, component := none } ["m"] "filter boom"
    (by simp) rfl
